import Mathlib

/-!
Verification of the pico HID driver layer
(`src/hid/lib/drivers-pico/factory.cpp`).

The keyboard and mouse drivers are shallowly embedded as pure step
functions on explicit state records.  Each driver operation returns the
new state together with the list of calls it makes on the shared USB
transport (`gKbMouse`), so frame and transmission properties can be
stated directly.  Machine `int` fields are modelled as `Int` (positions,
deltas) or `Nat` (bit masks, which the source keeps non-negative); the
`x &= ~m` idiom on a 32-bit int is modelled by masking against
`2 ^ 32 - 1`, and narrowing an `int` into a `uint8_t` report byte is
modelled by `% 256`.
-/

/-- Modelled from the spec: the mouse button bit flags {left, right,
middle} of the external transport header (the source uses `MOUSE_LEFT`
etc. from `USBMouseKeyboard.h`, which is outside `src/`). -/
def MOUSE_LEFT : Nat := 1

/-- Modelled from the spec: right button flag. -/
def MOUSE_RIGHT : Nat := 2

/-- Modelled from the spec: middle button flag. -/
def MOUSE_MIDDLE : Nat := 4

/-- Modelled from the spec: the 8-bit modifier flag set
(Ctrl/Shift/Alt/Meta, left and right variants) of the external transport
header.  Left Ctrl flag. -/
def KEY_CTRL : Int := 1

/-- Modelled from the spec: left Shift flag. -/
def KEY_SHIFT : Int := 2

/-- Modelled from the spec: left Alt flag. -/
def KEY_ALT : Int := 4

/-- Modelled from the spec: left Meta flag. -/
def KEY_LOGO : Int := 8

/-- Modelled from the spec: right Ctrl flag. -/
def KEY_RCTRL : Int := 16

/-- Modelled from the spec: right Shift flag. -/
def KEY_RSHIFT : Int := 32

/-- Modelled from the spec: right Alt flag. -/
def KEY_RALT : Int := 64

/-- Modelled from the spec: right Meta flag.  It is the eighth bit of
the modifier flag set; no key code of this driver maps to it. -/
def KEY_RLOGO : Int := 128

/-- Modelled from the spec: the fixed keyboard report id constant of the
external transport header. -/
def REPORT_ID_KEYBOARD : Nat := 1

/-- All bits of a 32-bit machine int. -/
def UINT32_MASK : Nat := 2 ^ 32 - 1

/-- `v &= ~m` on a non-negative 32-bit machine int. -/
def andNot (v m : Nat) : Nat := v &&& (UINT32_MASK ^^^ m)

/-- A call made on the shared transport singleton `gKbMouse`. -/
inductive TransportEvent where
  | move (x y : Int)
  | update (x y : Int) (buttons : Nat) (scroll : Int)
  | send (report : List Nat)
deriving DecidableEq

/-- The cached state of `UsbMouse` (fields in source declaration
order). -/
structure MouseState where
  mPositionX : Int
  mPositionY : Int
  mScroll : Int
  mButtons : Nat
deriving DecidableEq

/-- `UsbMouse::clear`: resets buttons, position and scroll to zero; it
makes no transport call. -/
def UsbMouse.clear (_ : MouseState) : MouseState × List TransportEvent :=
  (⟨0, 0, 0, 0⟩, [])

/-- `UsbMouse::sendUpdate`: `gKbMouse.update(mPositionX, mPositionY,
mButtons, mScroll)`. -/
def UsbMouse.sendUpdate (s : MouseState) : List TransportEvent :=
  [TransportEvent.update s.mPositionX s.mPositionY s.mButtons s.mScroll]

/-- `UsbMouse::sendButtons`, exactly as written in the source: the LEFT
bit is driven by `leftState` alone (`leftSelect` is never read), the
RIGHT bit is driven by `rightSelect` (`rightState` is never read), the
MIDDLE bit is driven by `middleState` alone, and the up/down arguments
are not used at all; then `sendUpdate()`. -/
def UsbMouse.sendButtons (s : MouseState)
    (leftSelect leftState rightSelect rightState
     middleSelect middleState upSelect upState
     downSelect downState : Bool) : MouseState × List TransportEvent :=
  let b1 := if leftState then s.mButtons ||| MOUSE_LEFT else andNot s.mButtons MOUSE_LEFT
  let b2 := if rightSelect then b1 ||| MOUSE_RIGHT else andNot b1 MOUSE_RIGHT
  let b3 := if middleState then b2 ||| MOUSE_MIDDLE else andNot b2 MOUSE_MIDDLE
  let s2 : MouseState := { s with mButtons := b3 }
  (s2, UsbMouse.sendUpdate s2)

/-- `UsbMouse::sendRelative`: `gKbMouse.move(x, y)`; no cached field is
touched. -/
def UsbMouse.sendRelative (s : MouseState) (x y : Int) :
    MouseState × List TransportEvent :=
  (s, [TransportEvent.move x y])

/-- `UsbMouse::sendMove`: overwrites the cached position, then
`sendUpdate()`. -/
def UsbMouse.sendMove (s : MouseState) (x y : Int) :
    MouseState × List TransportEvent :=
  let s2 : MouseState := { s with mPositionX := x, mPositionY := y }
  (s2, UsbMouse.sendUpdate s2)

/-- `UsbMouse::sendWheel`: overwrites the cached scroll, then
`sendUpdate()`. -/
def UsbMouse.sendWheel (s : MouseState) (z : Int) :
    MouseState × List TransportEvent :=
  let s2 : MouseState := { s with mScroll := z }
  (s2, UsbMouse.sendUpdate s2)

/-- The cached state of `UsbKeyboard`.  `mKeys` models the
`std::set<int>` as its strictly ascending list of elements. -/
structure KeyboardState where
  mModifiers : Nat
  mKeys : List Nat
deriving DecidableEq

/-- `UsbKeyboard::codeToModifier`: the switch over the key code, with
`-1` as the no-modifier sentinel.  Seven cases, 77..83. -/
def codeToModifier (code : Nat) : Int :=
  if code = 77 then KEY_CTRL -- ControlLeft
  else if code = 78 then KEY_SHIFT -- ShiftLeft
  else if code = 79 then KEY_ALT -- AltLeft
  else if code = 80 then KEY_LOGO -- MetaLeft
  else if code = 81 then KEY_RCTRL -- ControlRight
  else if code = 82 then KEY_RSHIFT -- ShiftRight
  else if code = 83 then KEY_RALT -- AltRight
  else -1

/-- `std::set<int>::emplace` on the sorted-list model: insert keeping
the strictly ascending order, a no-op when the element is present. -/
def setInsert (k : Nat) : List Nat → List Nat
  | [] => [k]
  | x :: xs =>
    if k < x then k :: x :: xs
    else if k = x then x :: xs
    else x :: setInsert k xs

/-- `std::set<int>::erase(find(k))`: removes the element when present. -/
def setErase (k : Nat) : List Nat → List Nat
  | [] => []
  | x :: xs => if k = x then xs else x :: setErase k xs

/-- `UsbKeyboard::sendRaport`, as a pure report encoder: a 9-byte
buffer `[REPORT_ID_KEYBOARD, mModifiers, 0, slots.., 0]` whose key
slots 3..7 start zeroed and of which the copy loop fills the first
`min(mKeys.size(), 1)` from `mKeys.cbegin()`. -/
def UsbKeyboard.sendRaport (s : KeyboardState) : List Nat :=
  let keySlots := (s.mKeys.take (min s.mKeys.length 1)).map (fun k => k % 256)
  [REPORT_ID_KEYBOARD, s.mModifiers % 256, 0]
    ++ keySlots ++ List.replicate (5 - keySlots.length) 0 ++ [0]

/-- `UsbKeyboard::clear`: `mKeys.clear()` only; no transport call, and
`mModifiers` is not touched. -/
def UsbKeyboard.clear (s : KeyboardState) : KeyboardState × List TransportEvent :=
  ({ s with mKeys := [] }, [])

/-- `UsbKeyboard::sendKey`.  The external lookup table `keymapUsb`
(`usb-keymap.h`, outside `src/`; the spec describes it as a pure
code-to-usage function) is threaded as a function parameter. -/
def UsbKeyboard.sendKey (keymapUsb : Nat → Nat) (s : KeyboardState)
    (code : Nat) (state : Bool) : KeyboardState × List TransportEvent :=
  let mod := codeToModifier code
  let s2 : KeyboardState :=
    if mod ≠ -1 then
      if state then { s with mModifiers := s.mModifiers ||| mod.toNat }
      else { s with mModifiers := andNot s.mModifiers mod.toNat }
    else
      let key := keymapUsb code
      if state then
        if s.mKeys.length < 5 then { s with mKeys := setInsert key s.mKeys }
        else s
      else
        if key ∈ s.mKeys then { s with mKeys := setErase key s.mKeys }
        else s
  (s2, [TransportEvent.send (UsbKeyboard.sendRaport s2)])

/-- Folds a list of `(code, state)` events through `sendKey`, keeping
the state component. -/
def runKeys (keymapUsb : Nat → Nat) (s : KeyboardState)
    (evs : List (Nat × Bool)) : KeyboardState :=
  evs.foldl (fun st e => (UsbKeyboard.sendKey keymapUsb st e.1 e.2).1) s

lemma setInsert_length_le (k : Nat) (l : List Nat) :
    (setInsert k l).length ≤ l.length + 1 := by
  induction l with
  | nil => simp [setInsert]
  | cons x xs ih =>
    simp only [setInsert]
    split_ifs with h1 h2
    · simp
    · simp
    · simpa using Nat.succ_le_succ ih

lemma setErase_sublist (k : Nat) (l : List Nat) : (setErase k l).Sublist l := by
  induction l with
  | nil => simp [setErase]
  | cons x xs ih =>
    simp only [setErase]
    split_ifs with h
    · exact List.sublist_cons_self x xs
    · exact ih.cons₂ x

lemma setErase_length_le (k : Nat) (l : List Nat) :
    (setErase k l).length ≤ l.length :=
  (setErase_sublist k l).length_le

lemma sendKey_keys_length_le (keymapUsb : Nat → Nat) (s : KeyboardState)
    (code : Nat) (state : Bool) (h : s.mKeys.length ≤ 5) :
    (UsbKeyboard.sendKey keymapUsb s code state).1.mKeys.length ≤ 5 := by
  dsimp only [UsbKeyboard.sendKey]
  split_ifs with h1 h2 h3 h4 h5
  · exact h
  · exact h
  · have := setInsert_length_le (keymapUsb code) s.mKeys
    show (setInsert (keymapUsb code) s.mKeys).length ≤ 5
    omega
  · exact h
  · exact le_trans (setErase_length_le (keymapUsb code) s.mKeys) h
  · exact h

lemma runKeys_keys_length_le (keymapUsb : Nat → Nat)
    (evs : List (Nat × Bool)) (s : KeyboardState)
    (h : s.mKeys.length ≤ 5) :
    (runKeys keymapUsb s evs).mKeys.length ≤ 5 := by
  induction evs generalizing s with
  | nil => exact h
  | cons e evs ih =>
    exact ih _ (sendKey_keys_length_le keymapUsb s e.1 e.2 h)

/-- The report encoder in closed form: byte 3 is the head of the sorted
key list (0 when empty), every other slot and pad byte is fixed. -/
lemma sendRaport_eq (s : KeyboardState) :
    UsbKeyboard.sendRaport s
      = [REPORT_ID_KEYBOARD, s.mModifiers % 256, 0, (s.mKeys.headD 0) % 256,
         0, 0, 0, 0, 0] := by
  cases hk : s.mKeys with
  | nil => simp [UsbKeyboard.sendRaport, hk]
  | cons x xs => simp [UsbKeyboard.sendRaport, hk, List.replicate]

/-- C2 — `|pressedKeys| ≤ 5` holds after any event sequence from any
state satisfying it; a press of a non-modifier code inserts the
translated usage exactly when the size is below 5 and is dropped,
changing nothing, when the size is 5; a release erases the usage when
present and changes nothing when absent. -/
theorem C2_pressed_keys_bound (keymapUsb : Nat → Nat) (s : KeyboardState)
    (evs : List (Nat × Bool)) (code : Nat) (h : s.mKeys.length ≤ 5) :
    (runKeys keymapUsb s evs).mKeys.length ≤ 5
    ∧ (codeToModifier code = -1 → s.mKeys.length < 5 →
        (UsbKeyboard.sendKey keymapUsb s code true).1.mKeys
          = setInsert (keymapUsb code) s.mKeys)
    ∧ (codeToModifier code = -1 → s.mKeys.length = 5 →
        (UsbKeyboard.sendKey keymapUsb s code true).1.mKeys = s.mKeys)
    ∧ (codeToModifier code = -1 → keymapUsb code ∈ s.mKeys →
        (UsbKeyboard.sendKey keymapUsb s code false).1.mKeys
          = setErase (keymapUsb code) s.mKeys)
    ∧ (codeToModifier code = -1 → keymapUsb code ∉ s.mKeys →
        (UsbKeyboard.sendKey keymapUsb s code false).1.mKeys = s.mKeys) := by
  refine ⟨runKeys_keys_length_le keymapUsb evs s h, ?_, ?_, ?_, ?_⟩
  all_goals intro hmod hcond
  all_goals dsimp only [UsbKeyboard.sendKey]
  all_goals rw [hmod]
  all_goals split_ifs <;> first | rfl | omega | simp_all

/-- C2 witness: from the empty set, six presses of distinct non-modifier
codes leave the size at 5. -/
theorem C2_witness :
    ([] : List Nat).length ≤ 5
    ∧ (runKeys id ⟨0, []⟩
        [(1, true), (2, true), (3, true), (4, true), (5, true),
         (6, true)]).mKeys.length ≤ 5 :=
  ⟨by decide,
   (C2_pressed_keys_bound id ⟨0, []⟩
     [(1, true), (2, true), (3, true), (4, true), (5, true), (6, true)]
     6 (by decide)).1⟩

/-- C4 — the encoder always yields the 9 bytes `[reportId, modifiers,
0, key0, 0, 0, 0, 0, 0]` with only the key0 slot ever populated; for
modifiers = ALT and pressedKeys = [usageA] the report is
`[reportId, ALT, 0, usageA, 0, 0, 0, 0, 0]` byte-for-byte. -/
theorem C4_report_format (s : KeyboardState) (usageA : Nat)
    (hu : usageA < 256) :
    (UsbKeyboard.sendRaport s).length = 9
    ∧ UsbKeyboard.sendRaport s
        = [REPORT_ID_KEYBOARD, s.mModifiers % 256, 0,
           (s.mKeys.headD 0) % 256, 0, 0, 0, 0, 0]
    ∧ UsbKeyboard.sendRaport ⟨KEY_ALT.toNat, [usageA]⟩
        = [REPORT_ID_KEYBOARD, KEY_ALT.toNat, 0, usageA, 0, 0, 0, 0, 0] := by
  refine ⟨?_, sendRaport_eq s, ?_⟩
  · rw [sendRaport_eq]
    rfl
  · rw [sendRaport_eq]
    simp [KEY_ALT, Nat.mod_eq_of_lt hu]

/-- C4 witness at usageA = 42. -/
theorem C4_witness :
    (42 : Nat) < 256
    ∧ UsbKeyboard.sendRaport ⟨KEY_ALT.toNat, [42]⟩
        = [REPORT_ID_KEYBOARD, KEY_ALT.toNat, 0, 42, 0, 0, 0, 0, 0] :=
  ⟨by norm_num, (C4_report_format ⟨0, []⟩ 42 (by norm_num)).2.2⟩

lemma mem_setInsert (y k : Nat) (l : List Nat) :
    y ∈ setInsert k l ↔ y = k ∨ y ∈ l := by
  induction l with
  | nil => simp [setInsert]
  | cons x xs ih =>
    simp only [setInsert]
    split_ifs with h1 h2
    · exact List.mem_cons
    · subst h2
      simp only [List.mem_cons]
      tauto
    · simp only [List.mem_cons, ih]
      tauto

lemma sorted_setInsert (k : Nat) (l : List Nat)
    (h : List.Sorted (fun a b => a < b) l) :
    List.Sorted (fun a b => a < b) (setInsert k l) := by
  induction l with
  | nil => simp [setInsert]
  | cons x xs ih =>
    rw [List.sorted_cons] at h
    obtain ⟨hx, hxs⟩ := h
    simp only [setInsert]
    split_ifs with h1 h2
    · rw [List.sorted_cons]
      refine ⟨?_, ?_⟩
      · intro b hb
        rcases List.mem_cons.mp hb with rfl | hb
        · exact h1
        · exact h1.trans (hx b hb)
      · rw [List.sorted_cons]
        exact ⟨hx, hxs⟩
    · rw [List.sorted_cons]
      exact ⟨hx, hxs⟩
    · rw [List.sorted_cons]
      refine ⟨?_, ih hxs⟩
      intro b hb
      rcases (mem_setInsert b k xs).mp hb with rfl | hb
      · omega
      · exact hx b hb

lemma sorted_setErase (k : Nat) (l : List Nat)
    (h : List.Sorted (fun a b => a < b) l) :
    List.Sorted (fun a b => a < b) (setErase k l) :=
  List.Pairwise.sublist (setErase_sublist k l) h

lemma sendKey_keys_sorted (keymapUsb : Nat → Nat) (s : KeyboardState)
    (code : Nat) (state : Bool)
    (h : List.Sorted (fun a b => a < b) s.mKeys) :
    List.Sorted (fun a b => a < b)
      (UsbKeyboard.sendKey keymapUsb s code state).1.mKeys := by
  dsimp only [UsbKeyboard.sendKey]
  split_ifs
  · exact h
  · exact h
  · exact sorted_setInsert (keymapUsb code) s.mKeys h
  · exact h
  · exact sorted_setErase (keymapUsb code) s.mKeys h
  · exact h

lemma runKeys_keys_sorted (keymapUsb : Nat → Nat)
    (evs : List (Nat × Bool)) (s : KeyboardState)
    (h : List.Sorted (fun a b => a < b) s.mKeys) :
    List.Sorted (fun a b => a < b) (runKeys keymapUsb s evs).mKeys := by
  induction evs generalizing s with
  | nil => exact h
  | cons e evs ih =>
    exact ih _ (sendKey_keys_sorted keymapUsb s e.1 e.2 h)

lemma sorted_head_le (l : List Nat)
    (h : List.Sorted (fun a b => a < b) l) :
    ∀ k ∈ l, l.headD 0 ≤ k := by
  cases l with
  | nil =>
    intro k hk
    simp at hk
  | cons x xs =>
    rw [List.sorted_cons] at h
    intro k hk
    rcases List.mem_cons.mp hk with rfl | hk
    · simp
    · simpa using le_of_lt (h.1 k hk)

/-- C6 counterexample: with the identity keymap, pressing code 10 and
then code 5 leaves both held, so the earliest-inserted still-held key is
10; but `mKeys` (a `std::set<int>`) stores them in ascending value order
and the report's byte 3 is 5, not 10. -/
theorem C6_counterexample :
    (runKeys id ⟨0, []⟩ [(10, true), (5, true)]).mKeys = [5, 10]
    ∧ (UsbKeyboard.sendRaport
        (runKeys id ⟨0, []⟩ [(10, true), (5, true)])).getD 3 0 = 5
    ∧ (UsbKeyboard.sendRaport
        (runKeys id ⟨0, []⟩ [(10, true), (5, true)])).getD 3 0 ≠ 10 :=
  ⟨by decide, by decide, by decide⟩

/-- C6 (amended) — `pressedKeys` is a value-ordered set: it stays
strictly ascending under any event sequence, and for a non-empty set the
report's byte 3 holds the smallest usage id among the pressed keys
(truncated to a byte), not the earliest-inserted one. -/
theorem C6_report_first_slot (keymapUsb : Nat → Nat) (s : KeyboardState)
    (evs : List (Nat × Bool))
    (hs : List.Sorted (fun a b => a < b) s.mKeys)
    (hne : (runKeys keymapUsb s evs).mKeys ≠ []) :
    List.Sorted (fun a b => a < b) (runKeys keymapUsb s evs).mKeys
    ∧ (UsbKeyboard.sendRaport (runKeys keymapUsb s evs)).getD 3 0
        = ((runKeys keymapUsb s evs).mKeys.headD 0) % 256
    ∧ ∀ k ∈ (runKeys keymapUsb s evs).mKeys,
        (runKeys keymapUsb s evs).mKeys.headD 0 ≤ k := by
  have hsorted := runKeys_keys_sorted keymapUsb evs s hs
  refine ⟨hsorted, ?_, sorted_head_le _ hsorted⟩
  rw [sendRaport_eq]
  rfl

/-- C6 witness: pressing 10, 5, 7 from the empty set. -/
theorem C6_witness :
    (runKeys id ⟨0, []⟩ [(10, true), (5, true), (7, true)]).mKeys ≠ []
    ∧ (UsbKeyboard.sendRaport
        (runKeys id ⟨0, []⟩ [(10, true), (5, true), (7, true)])).getD 3 0
      = ((runKeys id ⟨0, []⟩
          [(10, true), (5, true), (7, true)]).mKeys.headD 0) % 256 :=
  ⟨by decide,
   (C6_report_first_slot id ⟨0, []⟩ [(10, true), (5, true), (7, true)]
     List.sorted_nil (by decide)).2.1⟩

lemma codeToModifier_cases (code : Nat) (h : codeToModifier code ≠ -1) :
    code = 77 ∨ code = 78 ∨ code = 79 ∨ code = 80 ∨ code = 81 ∨ code = 82
      ∨ code = 83 := by
  unfold codeToModifier at h
  split_ifs at h with h1 h2 h3 h4 h5 h6 h7
  · exact Or.inl h1
  · exact Or.inr (Or.inl h2)
  · exact Or.inr (Or.inr (Or.inl h3))
  · exact Or.inr (Or.inr (Or.inr (Or.inl h4)))
  · exact Or.inr (Or.inr (Or.inr (Or.inr (Or.inl h5))))
  · exact Or.inr (Or.inr (Or.inr (Or.inr (Or.inr (Or.inl h6)))))
  · exact Or.inr (Or.inr (Or.inr (Or.inr (Or.inr (Or.inr h7)))))
  · exact absurd rfl h

lemma or_two_pow_testBit (m b i : Nat) :
    (m ||| 2 ^ b).testBit i = (m.testBit i || decide (i = b)) := by
  rw [Nat.testBit_or, Nat.testBit_two_pow]
  congr 1
  simp [eq_comm]

lemma andNot_two_pow_testBit (m b i : Nat) (hm : m < 2 ^ 32) (hb : b < 32) :
    (andNot m (2 ^ b)).testBit i = (m.testBit i && decide (i ≠ b)) := by
  unfold andNot UINT32_MASK
  rw [Nat.testBit_and, Nat.testBit_xor, Nat.testBit_two_pow_sub_one,
    Nat.testBit_two_pow]
  by_cases hi : i < 32
  · by_cases hbi : i = b
    · subst hbi
      simp [hi]
    · have hbi2 : ¬b = i := fun hcon => hbi hcon.symm
      simp [hi, hbi, hbi2]
  · have h32 : (2 : Nat) ^ 32 ≤ 2 ^ i :=
      Nat.pow_le_pow_right (by norm_num) (le_of_not_lt hi)
    have hmf : m.testBit i = false :=
      Nat.testBit_lt_two_pow (lt_of_lt_of_le hm h32)
    rw [hmf]
    simp

/-- A key code classified as a modifier flag `2 ^ b` updates exactly
bit `b` of `mModifiers` and never touches `mKeys`. -/
lemma sendKey_modifier (keymapUsb : Nat → Nat) (s : KeyboardState)
    (code b : Nat) (hmod : codeToModifier code = ((2 ^ b : Nat) : Int))
    (hb : b < 32) (hm : s.mModifiers < 2 ^ 32) (i : Nat) :
    (∀ st : Bool, (UsbKeyboard.sendKey keymapUsb s code st).1.mKeys = s.mKeys)
    ∧ (UsbKeyboard.sendKey keymapUsb s code true).1.mModifiers.testBit i
        = (s.mModifiers.testBit i || decide (i = b))
    ∧ (UsbKeyboard.sendKey keymapUsb s code false).1.mModifiers.testBit i
        = (s.mModifiers.testBit i && decide (i ≠ b)) := by
  have hne : codeToModifier code ≠ -1 := by
    rw [hmod]
    intro hcon
    have h0 : (0 : Int) ≤ ((2 ^ b : Nat) : Int) := Int.natCast_nonneg _
    rw [hcon] at h0
    exact absurd h0 (by norm_num)
  refine ⟨?_, ?_, ?_⟩
  · intro st
    dsimp only [UsbKeyboard.sendKey]
    rw [if_pos hne]
    cases st <;> rfl
  · dsimp only [UsbKeyboard.sendKey]
    rw [if_pos hne, hmod]
    show (s.mModifiers ||| (((2 ^ b : Nat) : Int)).toNat).testBit i = _
    rw [Int.toNat_natCast]
    exact or_two_pow_testBit s.mModifiers b i
  · dsimp only [UsbKeyboard.sendKey]
    rw [if_pos hne, hmod]
    show (andNot s.mModifiers (((2 ^ b : Nat) : Int)).toNat).testBit i = _
    rw [Int.toNat_natCast]
    exact andNot_two_pow_testBit s.mModifiers b i hm hb

/-- C3 counterexample: the driver classifies seven key codes as
modifiers, not eight — code 84 (MetaRight in the claimed 1:1 mapping)
returns the no-modifier sentinel, and no code at all reaches the eighth
flag bit `KEY_RLOGO`. -/
theorem C3_counterexample :
    ¬ ((List.range 256).filter (fun c => codeToModifier c != -1)).length = 8
    ∧ codeToModifier 84 = -1 :=
  ⟨by decide, by decide⟩

set_option maxRecDepth 8000 in
/-- C3 (amended) — exactly seven key codes (77..83) are classified as
modifiers, mapping 1:1 onto seven of the eight modifier flag bits while
the right-Meta bit `KEY_RLOGO` is reached by no code; for a modifier
code, press sets exactly the corresponding bit and release clears
exactly it, leaving `mKeys` untouched; a non-modifier code never
changes `mModifiers`; code 79 drives exactly the Alt bit (bit 2). -/
theorem C3_modifier_mapping (keymapUsb : Nat → Nat) (s : KeyboardState)
    (code i : Nat) (hm : s.mModifiers < 2 ^ 32) :
    ((List.range 256).filter (fun c => codeToModifier c != -1)).length = 7
    ∧ ((List.range 256).filter (fun c => codeToModifier c != -1)).map
        codeToModifier
        = [KEY_CTRL, KEY_SHIFT, KEY_ALT, KEY_LOGO, KEY_RCTRL, KEY_RSHIFT,
           KEY_RALT]
    ∧ (∀ c ∈ List.range 256, codeToModifier c ≠ KEY_RLOGO)
    ∧ (codeToModifier code ≠ -1 →
        ∃ b, b < 8 ∧ (codeToModifier code).toNat = 2 ^ b
          ∧ (∀ st : Bool,
              (UsbKeyboard.sendKey keymapUsb s code st).1.mKeys = s.mKeys)
          ∧ (UsbKeyboard.sendKey keymapUsb s code true).1.mModifiers.testBit i
              = (s.mModifiers.testBit i || decide (i = b))
          ∧ (UsbKeyboard.sendKey keymapUsb s code false).1.mModifiers.testBit i
              = (s.mModifiers.testBit i && decide (i ≠ b)))
    ∧ (codeToModifier code = -1 → ∀ st : Bool,
        (UsbKeyboard.sendKey keymapUsb s code st).1.mModifiers = s.mModifiers)
    ∧ (UsbKeyboard.sendKey keymapUsb s 79 true).1.mModifiers.testBit i
        = (s.mModifiers.testBit i || decide (i = 2))
    ∧ (UsbKeyboard.sendKey keymapUsb s 79 false).1.mModifiers.testBit i
        = (s.mModifiers.testBit i && decide (i ≠ 2)) := by
  refine ⟨by decide, by decide, by decide, ?_, ?_,
    (sendKey_modifier keymapUsb s 79 2 (by decide) (by norm_num) hm i).2.1,
    (sendKey_modifier keymapUsb s 79 2 (by decide) (by norm_num) hm i).2.2⟩
  · intro h
    rcases codeToModifier_cases code h with rfl | rfl | rfl | rfl | rfl | rfl | rfl
    · obtain ⟨hk, hp, hr⟩ :=
        sendKey_modifier keymapUsb s 77 0 (by decide) (by norm_num) hm i
      exact ⟨0, by norm_num, by decide, hk, hp, hr⟩
    · obtain ⟨hk, hp, hr⟩ :=
        sendKey_modifier keymapUsb s 78 1 (by decide) (by norm_num) hm i
      exact ⟨1, by norm_num, by decide, hk, hp, hr⟩
    · obtain ⟨hk, hp, hr⟩ :=
        sendKey_modifier keymapUsb s 79 2 (by decide) (by norm_num) hm i
      exact ⟨2, by norm_num, by decide, hk, hp, hr⟩
    · obtain ⟨hk, hp, hr⟩ :=
        sendKey_modifier keymapUsb s 80 3 (by decide) (by norm_num) hm i
      exact ⟨3, by norm_num, by decide, hk, hp, hr⟩
    · obtain ⟨hk, hp, hr⟩ :=
        sendKey_modifier keymapUsb s 81 4 (by decide) (by norm_num) hm i
      exact ⟨4, by norm_num, by decide, hk, hp, hr⟩
    · obtain ⟨hk, hp, hr⟩ :=
        sendKey_modifier keymapUsb s 82 5 (by decide) (by norm_num) hm i
      exact ⟨5, by norm_num, by decide, hk, hp, hr⟩
    · obtain ⟨hk, hp, hr⟩ :=
        sendKey_modifier keymapUsb s 83 6 (by decide) (by norm_num) hm i
      exact ⟨6, by norm_num, by decide, hk, hp, hr⟩
  · intro h st
    dsimp only [UsbKeyboard.sendKey]
    rw [h]
    split_ifs <;> first | rfl | simp_all

/-- C3 witness: from a zero modifier mask, pressing code 79 makes bit 2
read as set. -/
theorem C3_witness :
    (0 : Nat) < 2 ^ 32
    ∧ (UsbKeyboard.sendKey id ⟨0, []⟩ 79 true).1.mModifiers.testBit 2
        = ((0 : Nat).testBit 2 || decide ((2 : Nat) = 2)) :=
  ⟨by norm_num, (C3_modifier_mapping id ⟨0, []⟩ 79 2 (by norm_num)).2.2.2.2.2.1⟩

/-- C1 — evaluation of the code at the failing inputs.  First conjunct:
from a state whose buttons mask holds exactly LEFT, a `sendButtons` call
with every argument false (in particular every `*Select` false, which
per the claim must leave every bit unchanged) clears the mask to 0.
Second conjunct: from an all-zero mask, `rightSelect=true` with
`rightState=false` (per the claim this must clear RIGHT) sets RIGHT. -/
theorem C1_code_evaluation :
    (UsbMouse.sendButtons ⟨0, 0, 0, MOUSE_LEFT⟩
      false false false false false false false false false false).1.mButtons = 0
    ∧ (UsbMouse.sendButtons ⟨0, 0, 0, 0⟩
      false false true false false false false false false false).1.mButtons
        = MOUSE_RIGHT := by
  constructor <;> decide

/-- C5 — `UsbKeyboard::clear` empties `mKeys` and leaves `mModifiers`
exactly unchanged, for every keyboard state. -/
theorem C5_clear_preserves_modifiers (s : KeyboardState) :
    (UsbKeyboard.clear s).1.mKeys = []
    ∧ (UsbKeyboard.clear s).1.mModifiers = s.mModifiers :=
  ⟨rfl, rfl⟩

/-- C7 — `sendRelative` forwards the deltas to the transport and leaves
the whole cached state (in particular the absolute position) unchanged;
`sendMove` overwrites the cached position with its arguments and sends
an update carrying them; neither `sendButtons` nor `sendWheel` writes
the cached position. -/
theorem C7_relative_no_position (s : MouseState) (dx dy x y z : Int)
    (ls lst rs rst ms mst us ust ds dst : Bool) :
    (UsbMouse.sendRelative s dx dy).1 = s
    ∧ (UsbMouse.sendRelative s dx dy).2 = [TransportEvent.move dx dy]
    ∧ (UsbMouse.sendMove s x y).1.mPositionX = x
    ∧ (UsbMouse.sendMove s x y).1.mPositionY = y
    ∧ (UsbMouse.sendMove s x y).2
        = [TransportEvent.update x y s.mButtons s.mScroll]
    ∧ (UsbMouse.sendButtons s ls lst rs rst ms mst us ust ds dst).1.mPositionX
        = s.mPositionX
    ∧ (UsbMouse.sendButtons s ls lst rs rst ms mst us ust ds dst).1.mPositionY
        = s.mPositionY
    ∧ (UsbMouse.sendWheel s z).1.mPositionX = s.mPositionX
    ∧ (UsbMouse.sendWheel s z).1.mPositionY = s.mPositionY :=
  ⟨rfl, rfl, rfl, rfl, rfl, rfl, rfl, rfl, rfl⟩

/-- C8 — every `sendKey` call, state-changing or not, makes exactly one
transport call, and that call sends the report encoded from the
post-call state. -/
theorem C8_one_report_per_sendKey (keymapUsb : Nat → Nat)
    (s : KeyboardState) (code : Nat) (state : Bool) :
    (UsbKeyboard.sendKey keymapUsb s code state).2.length = 1
    ∧ (UsbKeyboard.sendKey keymapUsb s code state).2
        = [TransportEvent.send (UsbKeyboard.sendRaport
            (UsbKeyboard.sendKey keymapUsb s code state).1)] :=
  ⟨rfl, rfl⟩

/-- C9 — keyboard `clear` and mouse `clear` mutate cached state only:
neither makes any transport call. -/
theorem C9_clear_transmits_nothing (sk : KeyboardState) (sm : MouseState) :
    (UsbKeyboard.clear sk).2 = []
    ∧ (UsbKeyboard.clear sk).1 = { sk with mKeys := [] }
    ∧ (UsbMouse.clear sm).2 = []
    ∧ (UsbMouse.clear sm).1 = ⟨0, 0, 0, 0⟩ :=
  ⟨rfl, rfl, rfl, rfl⟩

/-- C10 — `sendButtons` leaves the cached position and scroll unchanged
for every argument combination, and the update it transmits carries the
previously cached position and scroll together with the new buttons
mask. -/
theorem C10_sendButtons_frame (s : MouseState)
    (ls lst rs rst ms mst us ust ds dst : Bool) :
    (UsbMouse.sendButtons s ls lst rs rst ms mst us ust ds dst).1.mPositionX
        = s.mPositionX
    ∧ (UsbMouse.sendButtons s ls lst rs rst ms mst us ust ds dst).1.mPositionY
        = s.mPositionY
    ∧ (UsbMouse.sendButtons s ls lst rs rst ms mst us ust ds dst).1.mScroll
        = s.mScroll
    ∧ (UsbMouse.sendButtons s ls lst rs rst ms mst us ust ds dst).2
        = [TransportEvent.update s.mPositionX s.mPositionY
            (UsbMouse.sendButtons s ls lst rs rst ms mst us ust ds dst).1.mButtons
            s.mScroll] :=
  ⟨rfl, rfl, rfl, rfl⟩
